import Mathlib

/-!
Verification of the vuedefer repository (the `LazyRender` component in
`src/lazy-render.ts` and the `useIntersectionObserver` composable in
`src/composables/useIntersectionObserver.ts`) against its natural-language
specification.

The host framework (Vue) and the browser's intersection-detection capability
are external collaborators of the code under verification; they are embedded
operationally:

* elements of the host tree are `Elem` values;
* the external observer resource is a list of currently observed targets
  plus a log of the `observe` / `unobserve` / `disconnect` calls made on it;
* the reactive scheduler is embedded as an explicit event trace: intersection
  callbacks (`deliver`), mutations of the data the real subtree renders from
  (`setData`), and scheduler flushes (`flush`).  A flush runs, in source
  order: the pre-flush watcher of the composable that moves the target of the
  observer, the component's render (and the patch of the slot children it
  returns), and then the `{ flush: 'post' }` watcher of `isVisible` declared
  in `LazyRender.setup` (re-running the pre-flush watcher if that post
  watcher moved the container reference, as the scheduler drains jobs queued
  during post callbacks in the same cycle).

The slot content ("real content" description) is a parameter: `k` top-level
items, item `i` rendering value `view i d` from the underlying data `d`.
-/

namespace Vuedefer

/-- An element of the host tree: the wrapper element created by the
placeholder branch of the render closure, or the root element of a mounted
slot child (identified by the instance id of that child). -/
inductive Elem
  | wrapper
  | childRoot (id : Nat)
deriving DecidableEq

/-- A call made on the external observer resource. -/
inductive ObsOp
  | observe (e : Elem)
  | unobserve (e : Elem)
  | disconnect
deriving DecidableEq

/-- The external observer resource: the list of targets it currently
observes.  `observe` adds a target, `unobserve` removes it, `disconnect`
clears the list. -/
structure IOObserver where
  targets : List Elem
deriving DecidableEq

def IOObserver.observe (o : IOObserver) (e : Elem) : IOObserver :=
  { targets := if e ∈ o.targets then o.targets else o.targets ++ [e] }

def IOObserver.unobserve (o : IOObserver) (e : Elem) : IOObserver :=
  { targets := o.targets.filter (fun x => decide (x ≠ e)) }

def IOObserver.disconnect (_ : IOObserver) : IOObserver :=
  { targets := [] }

/-- State owned by one `useIntersectionObserver` call: the observer it
constructed, the reactive `isVisible` ref (initially `false`), the element for
which the `watch(target, ...)` callback last registered an `onCleanup`
unobserve (none when the last processed target value was `null`), and the log
of calls made on the observer resource. -/
structure TrackerState where
  observer : IOObserver
  isVisible : Bool
  lastTarget : Option Elem
  log : List ObsOp
deriving DecidableEq

/-- The callback passed to the observer constructor:
`([entry]) => { isVisible.value = entry.isIntersecting }`. -/
def TrackerState.callback (s : TrackerState) (b : Bool) : TrackerState :=
  { s with isVisible := b }

/-- The body of `watch(target, (el, _, onCleanup) => ...)` in
`useIntersectionObserver`, run when the target ref changed to `newT`: the
cleanup registered by the previous run (if any) unobserves the previous
element, then `if (!el) return`, else `observer.observe(el)` and a new
cleanup is registered. -/
def TrackerState.targetChanged (s : TrackerState) (newT : Option Elem) : TrackerState :=
  let s1 := match s.lastTarget with
    | some e => { s with observer := s.observer.unobserve e, log := s.log ++ [ObsOp.unobserve e] }
    | none => s
  match newT with
  | none => { s1 with lastTarget := none }
  | some e =>
      { s1 with observer := s1.observer.observe e, lastTarget := some e,
                log := s1.log ++ [ObsOp.observe e] }

/-- Delivery of an intersection record by the platform: the registered
callback is invoked only for elements the observer currently observes. -/
def TrackerState.platformDeliver (s : TrackerState) (e : Elem) (b : Bool) : TrackerState :=
  if e ∈ s.observer.targets then s.callback b else s

/-- The `stop` function of the composable: `observer.disconnect()`.  It is
also registered with `onUnmounted`. -/
def TrackerState.stop (s : TrackerState) : TrackerState :=
  { s with observer := s.observer.disconnect, log := s.log ++ [ObsOp.disconnect] }

/-- Configuration/capability errors of the error-handling design. -/
inductive CfgError
  | invalidConfiguration
  | unsupportedCapability
deriving DecidableEq

/-- Observer options, as passed through verbatim by the composable: the
threshold ratios, and a flag recording whether the margin string parses. -/
structure IOInit where
  threshold : List Rat
  rootMarginValid : Bool

/-- Modelled from the spec: the constructor of the external
intersection-detection capability (not part of this repository) validates its
configuration immediately — every threshold ratio must lie in `[0,1]` and the
margin string must parse — and fails construction with `InvalidConfiguration`
otherwise. -/
def createObserver (opts : IOInit) : Except CfgError IOObserver :=
  if opts.threshold.all (fun t => decide (0 ≤ t ∧ t ≤ 1)) then
    if opts.rootMarginValid then Except.ok { targets := [] }
    else Except.error CfgError.invalidConfiguration
  else Except.error CfgError.invalidConfiguration

/-- Setup of the composable `useIntersectionObserver(target, options)`: the
observer is constructed eagerly with the options passed through verbatim and
no error handling around the construction, `isVisible` starts `false`, and the
initial `{ immediate: true }` watch run sees a `null` target and returns
without observing. -/
def useIntersectionObserver (opts : IOInit) : Except CfgError TrackerState := do
  let o ← createObserver opts
  pure { observer := o, isVisible := false, lastTarget := none, log := [] }

/-- Events driving a tracker used on its own. -/
inductive TEv
  | target (t : Option Elem)
  | deliver (e : Elem) (b : Bool)
  | stop
deriving DecidableEq

def trackerStep (s : TrackerState) : TEv → TrackerState
  | TEv.target t => s.targetChanged t
  | TEv.deliver e b => s.platformDeliver e b
  | TEv.stop => s.stop

def trackerRun (s : TrackerState) (evs : List TEv) : TrackerState :=
  evs.foldl trackerStep s

/-- Invariant maintained by the watch of the composable: only the element
whose cleanup is pending (the last non-null processed target) can be in the
observation list. -/
def trackerInv (t : TrackerState) : Prop :=
  ∀ e ∈ t.observer.targets, t.lastTarget = some e

/-!
The `LazyRender` component (`src/lazy-render.ts`).  Its `setup` owns:

* `containerRef`, the target ref handed to `useIntersectionObserver`;
* `let render: Function | null` (`savedRender` below records whether it holds
  the stashed original render function) and `let currentVNode: VNode | null`
  (here: the list `children` of mounted slot-child instances is nonempty, its
  head being `currentVNode.component`);
* the `watch(isVisible, ..., { flush: 'post' })` freeze/unfreeze callback;
* the render closure returned from `setup`.

A slot child instance carries the identity `id` it got when mounted, its item
index `idx` in the slot's vnode list, whether its `render` property currently
is the frozen closure `() => component.subTree`, its internal state
`internal` (initialized at mount, reset only by a remount), and its committed
render output `subTree` (the value `view idx d` computed by its real render
function from the underlying data `d` current at that render).
-/

/-- A mounted slot-child component instance. -/
structure Child where
  id : Nat
  idx : Nat
  frozen : Bool
  internal : Nat
  subTree : Nat
deriving DecidableEq

/-- The committed output of the `LazyRender` component: the wrapper element
holding the Placeholder (fallback slot), or the outputs of the slot children. -/
inductive Disp
  | placeholder
  | content (items : List Nat)
deriving DecidableEq

/-- The whole state of one mounted `LazyRender` instance together with its
tracker.  `emitted` is the list of `change` notifications the component has
emitted towards the host (the source contains no `emit` call and declares no
`emits` option, so no step below appends to it); `creations` counts how often
the real subtree has been instantiated; `nextId` feeds fresh instance ids. -/
structure LRState where
  tracker : TrackerState
  containerRef : Option Elem
  children : List Child
  savedRender : Bool
  lastVisibleSeen : Bool
  displayed : Disp
  data : Nat
  emitted : List Bool
  nextId : Nat
  creations : Nat
deriving DecidableEq

/-- The pre-flush watcher of `useIntersectionObserver` applied to the current
value of `containerRef`: it runs exactly when that value differs from the one
it processed last. -/
def runTargetWatch (s : LRState) : LRState :=
  { s with tracker :=
      if s.containerRef = s.tracker.lastTarget then s.tracker
      else s.tracker.targetChanged s.containerRef }

/-- Mounting the slot's `k` top-level items: each gets a fresh instance id,
fresh internal state, and renders its initial output from the current data. -/
def mkChildren (k : Nat) (view : Nat → Nat → Nat) (d : Nat) (nid : Nat) : List Child :=
  (List.range k).map (fun i =>
    { id := nid + i, idx := i, frozen := false, internal := i, subTree := view i d })

/-- The render closure returned from `LazyRender.setup`, together with the
patch of what it returns:

* `if (!isVisible.value && !currentVNode) return h(tag, { ref: containerRef },
  slots.fallback?.())` — the wrapper element stays mounted and keeps holding
  the placeholder; patching it re-assigns the wrapper element to
  `containerRef`;
* otherwise `const vnode = slots.default?.(); currentVNode = vnode![0];
  return vnode` — on the first such render the slot children are mounted (the
  wrapper unmounts, which nulls `containerRef` and queues the target watcher,
  run here in the same cycle); on later renders each already-mounted child is
  patched: it re-renders through its current `render` property, so a frozen
  child returns its committed `subTree` unchanged while a live child
  recomputes its output from the current data. -/
def renderStep (k : Nat) (view : Nat → Nat → Nat) (s : LRState) : LRState :=
  if s.tracker.isVisible = false ∧ s.children = [] then
    { s with displayed := Disp.placeholder, containerRef := some Elem.wrapper }
  else
    match s.children with
    | [] =>
        let cs := mkChildren k view s.data s.nextId
        runTargetWatch
          { s with children := cs, nextId := s.nextId + k,
                   displayed := Disp.content (cs.map (fun c => c.subTree)),
                   containerRef := none, creations := s.creations + 1 }
    | c0 :: rest =>
        let cs := (c0 :: rest).map
          (fun c => if c.frozen then c else { c with subTree := view c.idx s.data })
        { s with children := cs, displayed := Disp.content (cs.map (fun c => c.subTree)) }

/-- The `watch(isVisible, (visible) => ..., { flush: 'post' })` callback of
`LazyRender.setup`.  The watcher fires only when `isVisible` differs from the
value it saw last.  Body, for `currentVNode` non-null: `containerRef.value =
currentVNode.el`; then on `!visible` it stashes `component.render` into the
`render` local and installs `component.render = () => component.subTree`
(freeze), and on `visible` it runs `component.render = render ||
component.render` (unfreeze when a render was stashed). -/
def visWatch (s : LRState) : LRState :=
  if s.tracker.isVisible = s.lastVisibleSeen then s
  else
    match s.children with
    | [] => { s with lastVisibleSeen := s.tracker.isVisible }
    | c0 :: rest =>
        if s.tracker.isVisible = false then
          { s with lastVisibleSeen := s.tracker.isVisible,
                   containerRef := some (Elem.childRoot c0.id),
                   savedRender := true,
                   children := { c0 with frozen := true } :: rest }
        else
          { s with lastVisibleSeen := s.tracker.isVisible,
                   containerRef := some (Elem.childRoot c0.id),
                   children := (if s.savedRender then { c0 with frozen := false } else c0) :: rest }

/-- Events driving a mounted `LazyRender` instance: invocation of the
intersection callback with an is-intersecting flag, a mutation of the
underlying data the slot children render from, and a scheduler flush. -/
inductive LREv
  | deliver (b : Bool)
  | setData (d : Nat)
  | flush
deriving DecidableEq

/-- One step of the embedded system. -/
def lrStep (k : Nat) (view : Nat → Nat → Nat) (s : LRState) : LREv → LRState
  | LREv.deliver b => { s with tracker := s.tracker.callback b }
  | LREv.setData d => { s with data := d }
  | LREv.flush => runTargetWatch (visWatch (renderStep k view (runTargetWatch s)))

/-- State right after mounting `LazyRender`: tracker constructed with
`isVisible = false` and nothing observed yet (the immediate watch run saw a
null target), the wrapper mounted holding the placeholder and assigned to
`containerRef`, no slot child mounted, `render` local null. -/
def lrInit : LRState :=
  { tracker := { observer := { targets := [] }, isVisible := false,
                 lastTarget := none, log := [] },
    containerRef := some Elem.wrapper, children := [], savedRender := false,
    lastVisibleSeen := false, displayed := Disp.placeholder, data := 0,
    emitted := [], nextId := 0, creations := 0 }

def lrRunFrom (k : Nat) (view : Nat → Nat → Nat) (s : LRState) (evs : List LREv) : LRState :=
  evs.foldl (lrStep k view) s

def lrRun (k : Nat) (view : Nat → Nat → Nat) (evs : List LREv) : LRState :=
  lrRunFrom k view lrInit evs

/-- Whether the instance behind `currentVNode` currently has the frozen
render override installed (false when no slot child is mounted). -/
def headFrozen (s : LRState) : Bool :=
  match s.children with
  | [] => false
  | c :: _ => c.frozen

def headSubTree (s : LRState) : Option Nat :=
  s.children.head?.map (fun c => c.subTree)

def headId (s : LRState) : Option Nat :=
  s.children.head?.map (fun c => c.id)

def headInternal (s : LRState) : Option Nat :=
  s.children.head?.map (fun c => c.internal)

/-- Decides whether the tracked first child stays frozen at every state along
the run of `evs` from `s` (the final state included). -/
def frozenRunB (k : Nat) (view : Nat → Nat → Nat) : LRState → List LREv → Bool
  | s, [] => headFrozen s
  | s, e :: es => headFrozen s && frozenRunB k view (lrStep k view s e) es

/-- Invariant relating the container reference and the observed target to the
lifecycle phase: before the real subtree exists the wrapper element is the
target (and the only element ever observed); once the subtree exists, the
root element of its first child is both the target and the one observed
element. -/
def lrInv (s : LRState) : Prop :=
  match s.children with
  | [] =>
      s.containerRef = some Elem.wrapper ∧ s.lastVisibleSeen = false ∧
      ((s.tracker.lastTarget = none ∧ s.tracker.observer.targets = []) ∨
        (s.tracker.lastTarget = some Elem.wrapper ∧
          s.tracker.observer.targets = [Elem.wrapper]))
  | c0 :: _ =>
      s.containerRef = some (Elem.childRoot c0.id) ∧
      s.tracker.lastTarget = some (Elem.childRoot c0.id) ∧
      s.tracker.observer.targets = [Elem.childRoot c0.id]

/-- Setup of the whole `LazyRender` component: it calls
`useIntersectionObserver(containerRef, { root, rootMargin, threshold })`
eagerly, with no error handling, before returning the render closure, so a
construction failure of the observer propagates out of `setup`. -/
def lazyRenderSetup (opts : IOInit) : Except CfgError LRState :=
  (useIntersectionObserver opts).map (fun tr => { lrInit with tracker := tr })

/-! ### Helper lemmas -/

theorem foldl_invariant {σ α : Type} (f : σ → α → σ) (P : σ → Prop)
    (h : ∀ s a, P s → P (f s a)) : ∀ (l : List α) (s : σ), P s → P (l.foldl f s) := by
  intro l
  induction l with
  | nil => intro s hs; simpa using hs
  | cons a t ih => intro s hs; simpa using ih (f s a) (h s a hs)

theorem targetChanged_isVisible (s : TrackerState) (t : Option Elem) :
    (s.targetChanged t).isVisible = s.isVisible := by
  cases hl : s.lastTarget <;> cases t <;> simp [TrackerState.targetChanged, hl]

theorem foldl_invariant_mem {σ α : Type} (f : σ → α → σ) (P : σ → Prop) (C : α → Prop)
    (h : ∀ s a, C a → P s → P (f s a)) :
    ∀ (l : List α) (s : σ), (∀ a ∈ l, C a) → P s → P (l.foldl f s) := by
  intro l
  induction l with
  | nil => intro s _ hs; simpa using hs
  | cons a t ih =>
      intro s hC hs
      simp only [List.foldl_cons]
      exact ih (f s a) (fun x hx => hC x (List.mem_cons_of_mem a hx))
        (h s a (hC a (List.mem_cons_self a t)) hs)

theorem targetChanged_from_none_to_some (t : TrackerState) (n : Elem)
    (h : t.lastTarget = none) :
    t.targetChanged (some n)
      = { t with observer := t.observer.observe n, lastTarget := some n,
                 log := t.log ++ [ObsOp.observe n] } := by
  unfold TrackerState.targetChanged
  rw [h]

theorem targetChanged_from_none_to_none (t : TrackerState) (h : t.lastTarget = none) :
    t.targetChanged none = { t with lastTarget := none } := by
  unfold TrackerState.targetChanged
  rw [h]

theorem targetChanged_from_some_to_some (t : TrackerState) (e n : Elem)
    (h : t.lastTarget = some e) :
    t.targetChanged (some n)
      = { t with observer := ( t.observer.unobserve e).observe n, lastTarget := some n,
                 log := (t.log ++ [ObsOp.unobserve e]) ++ [ObsOp.observe n] } := by
  unfold TrackerState.targetChanged
  rw [h]

theorem targetChanged_from_some_to_none (t : TrackerState) (e : Elem)
    (h : t.lastTarget = some e) :
    t.targetChanged none
      = { t with observer := t.observer.unobserve e, lastTarget := none,
                 log := t.log ++ [ObsOp.unobserve e] } := by
  unfold TrackerState.targetChanged
  rw [h]

theorem targetChanged_lastTarget (t : TrackerState) (newT : Option Elem) :
    ( t.targetChanged newT).lastTarget = newT := by
  cases hl : t.lastTarget <;> cases newT <;> simp [TrackerState.targetChanged, hl]

theorem observe_mem (obs : IOObserver) (m e : Elem) (he : e ∈ (obs.observe m).targets) :
    e ∈ obs.targets ∨ e = m := by
  unfold IOObserver.observe at he
  by_cases hm : m ∈ obs.targets
  · rw [if_pos hm] at he
    exact Or.inl he
  · rw [if_neg hm] at he
    rcases List.mem_append.mp he with h | h
    · exact Or.inl h
    · exact Or.inr (List.mem_singleton.mp h)

theorem unobserve_mem (obs : IOObserver) (x e : Elem) (he : e ∈ (obs.unobserve x).targets) :
    e ∈ obs.targets := by
  unfold IOObserver.unobserve at he
  exact (List.mem_filter.mp he).1

theorem targetChanged_mem (t : TrackerState) (newT : Option Elem) (e : Elem)
    (he : e ∈ ( t.targetChanged newT).observer.targets) :
    e ∈ t.observer.targets ∨ newT = some e := by
  cases hl : t.lastTarget with
  | none =>
      cases newT with
      | none =>
          rw [targetChanged_from_none_to_none t hl] at he
          exact Or.inl he
      | some m =>
          rw [targetChanged_from_none_to_some t m hl] at he
          rcases observe_mem _ m e he with h | h
          · exact Or.inl h
          · exact Or.inr (by rw [h])
  | some x =>
      cases newT with
      | none =>
          rw [targetChanged_from_some_to_none t x hl] at he
          exact Or.inl (unobserve_mem _ x e he)
      | some m =>
          rw [targetChanged_from_some_to_some t x m hl] at he
          rcases observe_mem _ m e he with h | h
          · exact Or.inl (unobserve_mem _ x e h)
          · exact Or.inr (by rw [h])

theorem platformDeliver_observer (t : TrackerState) (e : Elem) (b : Bool) :
    ( t.platformDeliver e b).observer = t.observer := by
  unfold TrackerState.platformDeliver TrackerState.callback
  split <;> rfl

theorem platformDeliver_lastTarget (t : TrackerState) (e : Elem) (b : Bool) :
    ( t.platformDeliver e b).lastTarget = t.lastTarget := by
  unfold TrackerState.platformDeliver TrackerState.callback
  split <;> rfl

theorem runTargetWatch_isVisible (s : LRState) :
    (runTargetWatch s).tracker.isVisible = s.tracker.isVisible := by
  unfold runTargetWatch
  split <;> simp [targetChanged_isVisible]

theorem visWatch_tracker (s : LRState) : (visWatch s).tracker = s.tracker := by
  unfold visWatch
  split
  · rfl
  · split
    · rfl
    · split <;> rfl

theorem visWatch_emitted (s : LRState) : (visWatch s).emitted = s.emitted := by
  unfold visWatch
  split
  · rfl
  · split
    · rfl
    · split <;> rfl

theorem visWatch_displayed (s : LRState) : (visWatch s).displayed = s.displayed := by
  unfold visWatch
  split
  · rfl
  · split
    · rfl
    · split <;> rfl

theorem renderStep_emitted (k : Nat) (view : Nat → Nat → Nat) (s : LRState) :
    (renderStep k view s).emitted = s.emitted := by
  unfold renderStep
  split
  · rfl
  · split <;> rfl

theorem lrStep_emitted (k : Nat) (view : Nat → Nat → Nat) (s : LRState) (e : LREv) :
    (lrStep k view s e).emitted = s.emitted := by
  cases e with
  | deliver b => rfl
  | setData d => rfl
  | flush =>
      show (runTargetWatch (visWatch (renderStep k view (runTargetWatch s)))).emitted = _
      simp [visWatch_emitted, renderStep_emitted,
            show ∀ u : LRState, (runTargetWatch u).emitted = u.emitted from fun _ => rfl]

theorem visWatch_children_nil (s : LRState) :
    (visWatch s).children = [] ↔ s.children = [] := by
  unfold visWatch
  split
  · exact Iff.rfl
  · split
    · exact Iff.rfl
    · next c0 rest heq => split <;> simp [heq]

theorem mkChildren_ne_nil (k : Nat) (view : Nat → Nat → Nat) (d nid : Nat) (hk : 0 < k) :
    mkChildren k view d nid ≠ [] := by
  simp only [mkChildren, ne_eq, List.map_eq_nil_iff, List.range_eq_nil]
  omega

theorem visWatch_children_cons (s : LRState) (c0 : Child) (rest : List Child)
    (hc : s.children = c0 :: rest) :
    ∃ b, (visWatch s).children = { c0 with frozen := b } :: rest := by
  unfold visWatch
  split
  · exact ⟨c0.frozen, hc⟩
  · split
    · next heq => rw [hc] at heq; cases heq
    · next c1 rest1 heq =>
        rw [hc] at heq
        injection heq with h1 h2
        subst h1; subst h2
        split
        · exact ⟨true, rfl⟩
        · cases hsr : s.savedRender with
          | true => exact ⟨false, by simp [hsr]⟩
          | false => exact ⟨c0.frozen, by simp [hsr]⟩

theorem renderStep_children_cons (k : Nat) (view : Nat → Nat → Nat) (s : LRState)
    (c0 : Child) (rest : List Child) (hc : s.children = c0 :: rest) (hcf : c0.frozen = true) :
    (renderStep k view s).children
      = c0 :: rest.map (fun c => if c.frozen then c else { c with subTree := view c.idx s.data }) := by
  unfold renderStep
  split
  · next hcond => rw [hc] at hcond; cases hcond.2
  · split
    · next heq => rw [hc] at heq; cases heq
    · next c1 rest1 heq =>
        rw [hc] at heq
        injection heq with h1 h2
        subst h1; subst h2
        simp [hcf]

theorem renderStep_children_cons_any (k : Nat) (view : Nat → Nat → Nat) (s : LRState)
    (c0 : Child) (rest : List Child) (hc : s.children = c0 :: rest) :
    (renderStep k view s).children
      = (c0 :: rest).map
          (fun c => if c.frozen then c else { c with subTree := view c.idx s.data }) := by
  unfold renderStep
  split
  · next hcond => rw [hc] at hcond; cases hcond.2
  · split
    · next heq => rw [hc] at heq; cases heq
    · next c1 rest1 heq =>
        rw [hc] at heq
        injection heq with h1 h2
        subst h1; subst h2
        rfl

theorem visWatch_map_ids (s : LRState) :
    (visWatch s).children.map (fun c => (c.id, c.idx, c.internal))
      = s.children.map (fun c => (c.id, c.idx, c.internal)) := by
  unfold visWatch
  split
  · rfl
  · split
    · rfl
    · next c0 rest heq =>
        split
        · simp [heq]
        · cases hsr : s.savedRender <;> simp [heq, hsr]

theorem visWatch_creations (s : LRState) : (visWatch s).creations = s.creations := by
  unfold visWatch
  split
  · rfl
  · split
    · rfl
    · split <;> rfl

theorem runTargetWatch_children (u : LRState) : (runTargetWatch u).children = u.children := rfl

theorem runTargetWatch_displayed (u : LRState) : (runTargetWatch u).displayed = u.displayed := rfl

theorem runTargetWatch_creations (u : LRState) : (runTargetWatch u).creations = u.creations := rfl

theorem renderStep_of_invisible_nil (k : Nat) (view : Nat → Nat → Nat) (s : LRState)
    (hv : s.tracker.isVisible = false) (hc : s.children = []) :
    renderStep k view s
      = { s with displayed := Disp.placeholder, containerRef := some Elem.wrapper } := by
  unfold renderStep
  rw [if_pos ⟨hv, hc⟩]

theorem renderStep_of_visible_nil (k : Nat) (view : Nat → Nat → Nat) (s : LRState)
    (hv : s.tracker.isVisible = true) (hc : s.children = []) :
    renderStep k view s
      = runTargetWatch
          { s with children := mkChildren k view s.data s.nextId,
                   nextId := s.nextId + k,
                   displayed :=
                     Disp.content ((mkChildren k view s.data s.nextId).map (fun c => c.subTree)),
                   containerRef := none, creations := s.creations + 1 } := by
  unfold renderStep
  rw [if_neg (by simp [hv]), hc]

theorem visWatch_of_quiet (s : LRState) (hq : s.tracker.isVisible = s.lastVisibleSeen) :
    visWatch s = s := by
  unfold visWatch
  rw [if_pos hq]

theorem mkChildren_frozen (k : Nat) (view : Nat → Nat → Nat) (d nid : Nat) :
    ∀ c ∈ mkChildren k view d nid, c.frozen = false := by
  simp [mkChildren]

theorem visWatch_children_of_visible_headfalse (s : LRState)
    (hv : s.tracker.isVisible = true) (hfz : headFrozen s = false) :
    (visWatch s).children = s.children := by
  unfold visWatch
  split
  · rfl
  · split
    · rfl
    · next c0 rest heq =>
        have hc0 : c0.frozen = false := by simpa [headFrozen, heq] using hfz
        split
        · next hfalse => rw [hv] at hfalse; cases hfalse
        · cases hsr : s.savedRender with
          | false => simp [heq, hsr]
          | true =>
              obtain ⟨ci, cx, cf, cn, cs⟩ := c0
              simp only at hc0
              simp [heq, hsr, hc0]

theorem renderStep_isVisible (k : Nat) (view : Nat → Nat → Nat) (s : LRState) :
    (renderStep k view s).tracker.isVisible = s.tracker.isVisible := by
  unfold renderStep
  split
  · rfl
  · split
    · rw [runTargetWatch_isVisible]
    · rfl

theorem renderStep_lastVisibleSeen (k : Nat) (view : Nat → Nat → Nat) (s : LRState) :
    (renderStep k view s).lastVisibleSeen = s.lastVisibleSeen := by
  unfold renderStep
  split
  · rfl
  · split <;> rfl

theorem headFrozen_eq_false_of_all (s : LRState)
    (h : ∀ c ∈ s.children, c.frozen = false) : headFrozen s = false := by
  cases hc : s.children with
  | nil => simp [headFrozen, hc]
  | cons c0 r =>
      simp only [headFrozen, hc]
      exact h c0 (by rw [hc]; exact List.mem_cons_self c0 r)

theorem renderStep_creations_of_cons (k : Nat) (view : Nat → Nat → Nat) (s : LRState)
    (c0 : Child) (rest : List Child) (hc : s.children = c0 :: rest) :
    (renderStep k view s).creations = s.creations := by
  unfold renderStep
  split
  · rfl
  · split
    · next heq => rw [hc] at heq; cases heq
    · rfl

theorem renderStep_displayed_of_cons (k : Nat) (view : Nat → Nat → Nat) (s : LRState)
    (c0 : Child) (rest : List Child) (hc : s.children = c0 :: rest) :
    (renderStep k view s).displayed
      = Disp.content ((renderStep k view s).children.map (fun c => c.subTree)) := by
  unfold renderStep
  split
  · next hcond => rw [hc] at hcond; cases hcond.2
  · split
    · next heq => rw [hc] at heq; cases heq
    · rfl

theorem runTargetWatch_of_eq (s : LRState) (h : s.containerRef = s.tracker.lastTarget) :
    runTargetWatch s = s := by
  unfold runTargetWatch
  rw [if_pos h]

theorem runTargetWatch_of_ne (s : LRState) (h : ¬ s.containerRef = s.tracker.lastTarget) :
    runTargetWatch s = { s with tracker := s.tracker.targetChanged s.containerRef } := by
  unfold runTargetWatch
  rw [if_neg h]

theorem visWatch_fired_nil (s : LRState)
    (hne : ¬ s.tracker.isVisible = s.lastVisibleSeen) (hc : s.children = []) :
    visWatch s = { s with lastVisibleSeen := s.tracker.isVisible } := by
  unfold visWatch
  rw [if_neg hne, hc]

theorem visWatch_fired_cons (s : LRState) (c0 : Child) (rest : List Child)
    (hne : ¬ s.tracker.isVisible = s.lastVisibleSeen) (hc : s.children = c0 :: rest) :
    ∃ b sr, visWatch s
      = { s with lastVisibleSeen := s.tracker.isVisible,
                 containerRef := some (Elem.childRoot c0.id),
                 savedRender := sr,
                 children := { c0 with frozen := b } :: rest } := by
  unfold visWatch
  split
  · next hq => exact absurd hq hne
  · split
    · next heq => rw [hc] at heq; cases heq
    · next c1 rest1 heq =>
        rw [hc] at heq
        injection heq with h1 h2
        subst h1; subst h2
        split
        · exact ⟨true, true, rfl⟩
        · cases hsr : s.savedRender with
          | true => exact ⟨false, true, by simp [hsr]⟩
          | false => exact ⟨c0.frozen, false, by simp [hsr]⟩

theorem renderStep_of_cons (k : Nat) (view : Nat → Nat → Nat) (s : LRState)
    (c0 : Child) (rest : List Child) (hc : s.children = c0 :: rest) :
    renderStep k view s = { s with
      children := (c0 :: rest).map (fun c =>
        if c.frozen then c else { c with subTree := view c.idx s.data }),
      displayed := Disp.content (((c0 :: rest).map (fun c =>
        if c.frozen then c else { c with subTree := view c.idx s.data })).map
          (fun c => c.subTree)) } := by
  unfold renderStep
  rw [if_neg (by rw [hc]; rintro ⟨-, h2⟩; cases h2), hc]

/-- Classification of one scheduler flush by the state it starts from:
invisible with no subtree commits the placeholder again; visible with no
subtree mounts the slot children once; with a subtree present each child is
re-rendered through its current render property and the post watcher may only
toggle the frozen flag of the first child. -/
theorem lrStep_flush_cases (k : Nat) (view : Nat → Nat → Nat) (s : LRState) :
    (s.tracker.isVisible = false ∧ s.children = [] ∧
      (lrStep k view s LREv.flush).children = [] ∧
      (lrStep k view s LREv.flush).creations = s.creations ∧
      (lrStep k view s LREv.flush).displayed = Disp.placeholder) ∨
    (s.tracker.isVisible = true ∧ s.children = [] ∧
      (lrStep k view s LREv.flush).children = mkChildren k view s.data s.nextId ∧
      (lrStep k view s LREv.flush).creations = s.creations + 1 ∧
      (lrStep k view s LREv.flush).displayed
        = Disp.content ((mkChildren k view s.data s.nextId).map (fun c => c.subTree))) ∨
    (∃ c0 rest b, s.children = c0 :: rest ∧
      (lrStep k view s LREv.flush).children
        = { (if c0.frozen then c0 else { c0 with subTree := view c0.idx s.data })
              with frozen := b }
          :: rest.map (fun c => if c.frozen then c else { c with subTree := view c.idx s.data }) ∧
      (lrStep k view s LREv.flush).creations = s.creations ∧
      (lrStep k view s LREv.flush).displayed
        = Disp.content ((lrStep k view s LREv.flush).children.map (fun c => c.subTree))) := by
  cases hc : s.children with
  | nil =>
      have hrc : (runTargetWatch s).children = [] := hc
      cases hv : s.tracker.isVisible with
      | false =>
          left
          have hrv : (runTargetWatch s).tracker.isVisible = false := by
            rw [runTargetWatch_isVisible]; exact hv
          have hr := renderStep_of_invisible_nil k view (runTargetWatch s) hrv hrc
          refine ⟨rfl, rfl, ?_, ?_, ?_⟩
          · show (runTargetWatch (visWatch (renderStep k view (runTargetWatch s)))).children = []
            rw [runTargetWatch_children, visWatch_children_nil, hr]
            exact hc
          · show (runTargetWatch (visWatch (renderStep k view (runTargetWatch s)))).creations = _
            rw [runTargetWatch_creations, visWatch_creations, hr]
            rfl
          · show (runTargetWatch (visWatch (renderStep k view (runTargetWatch s)))).displayed = _
            rw [runTargetWatch_displayed, visWatch_displayed, hr]
      | true =>
          right; left
          have hrv : (runTargetWatch s).tracker.isVisible = true := by
            rw [runTargetWatch_isVisible]; exact hv
          have hr := renderStep_of_visible_nil k view (runTargetWatch s) hrv hrc
          have hq : (visWatch (renderStep k view (runTargetWatch s))).children
              = (renderStep k view (runTargetWatch s)).children := by
            apply visWatch_children_of_visible_headfalse
            · rw [hr, runTargetWatch_isVisible]
              exact hrv
            · rw [hr]
              apply headFrozen_eq_false_of_all
              rw [runTargetWatch_children]
              exact mkChildren_frozen k view _ _
          refine ⟨rfl, rfl, ?_, ?_, ?_⟩
          · show (runTargetWatch (visWatch (renderStep k view (runTargetWatch s)))).children = _
            rw [runTargetWatch_children, hq, hr, runTargetWatch_children]
            rfl
          · show (runTargetWatch (visWatch (renderStep k view (runTargetWatch s)))).creations = _
            rw [runTargetWatch_creations, visWatch_creations, hr, runTargetWatch_creations]
            rfl
          · show (runTargetWatch (visWatch (renderStep k view (runTargetWatch s)))).displayed = _
            rw [runTargetWatch_displayed, visWatch_displayed, hr, runTargetWatch_displayed]
            rfl
  | cons c0 rest =>
      right; right
      have hrw : (runTargetWatch s).children = c0 :: rest := hc
      have hr2 : (renderStep k view (runTargetWatch s)).children
          = (if c0.frozen then c0 else { c0 with subTree := view c0.idx s.data })
            :: rest.map (fun c => if c.frozen then c else { c with subTree := view c.idx s.data }) :=
        renderStep_children_cons_any k view (runTargetWatch s) c0 rest hrw
      obtain ⟨b, hv2⟩ := visWatch_children_cons (renderStep k view (runTargetWatch s)) _ _ hr2
      refine ⟨c0, rest, b, rfl, ?_, ?_, ?_⟩
      · show (runTargetWatch (visWatch (renderStep k view (runTargetWatch s)))).children = _
        rw [runTargetWatch_children, hv2]
      · show (runTargetWatch (visWatch (renderStep k view (runTargetWatch s)))).creations = _
        rw [runTargetWatch_creations, visWatch_creations,
            renderStep_creations_of_cons k view (runTargetWatch s) c0 rest hrw,
            runTargetWatch_creations]
      · show (runTargetWatch (visWatch (renderStep k view (runTargetWatch s)))).displayed
          = Disp.content
              ((runTargetWatch (visWatch (renderStep k view (runTargetWatch s)))).children.map
                (fun c => c.subTree))
        rw [runTargetWatch_displayed, visWatch_displayed,
            renderStep_displayed_of_cons k view (runTargetWatch s) c0 rest hrw,
            runTargetWatch_children, hv2, hr2]
        rfl

theorem lrStep_children_of_frozen (k : Nat) (view : Nat → Nat → Nat)
    (c0 : Child) (rest : List Child) (s : LRState)
    (hc : s.children = c0 :: rest) (hcf : c0.frozen = true) (e : LREv) :
    ∃ b rest2, (lrStep k view s e).children = { c0 with frozen := b } :: rest2 := by
  cases e with
  | deliver b => exact ⟨c0.frozen, rest, hc⟩
  | setData d => exact ⟨c0.frozen, rest, hc⟩
  | flush =>
      have hrw : (runTargetWatch s).children = c0 :: rest := hc
      have hr := renderStep_children_cons k view (runTargetWatch s) c0 rest hrw hcf
      obtain ⟨b, hv⟩ := visWatch_children_cons (renderStep k view (runTargetWatch s)) c0 _ hr
      exact ⟨b, _, hv⟩

/-- One flush from a state with no mounted subtree and the wrapper as target:
if invisible, the placeholder is recommitted and the wrapper stays the (only)
observed target; if visible, the subtree mounts and by the end of the same
flush cycle the observed target is the root element of its first child. -/
theorem lrStep_flush_nil_analysis (k : Nat) (view : Nat → Nat → Nat) (hk : 0 < k)
    (s : LRState) (hc : s.children = []) (hcr : s.containerRef = some Elem.wrapper)
    (hlv : s.lastVisibleSeen = false)
    (htr : (s.tracker.lastTarget = none ∧ s.tracker.observer.targets = []) ∨
      (s.tracker.lastTarget = some Elem.wrapper ∧
        s.tracker.observer.targets = [Elem.wrapper])) :
    (s.tracker.isVisible = false ∧
      (lrStep k view s LREv.flush).children = [] ∧
      (lrStep k view s LREv.flush).containerRef = some Elem.wrapper ∧
      (lrStep k view s LREv.flush).lastVisibleSeen = false ∧
      (lrStep k view s LREv.flush).tracker.lastTarget = some Elem.wrapper ∧
      (lrStep k view s LREv.flush).tracker.observer.targets = [Elem.wrapper]) ∨
    (s.tracker.isVisible = true ∧
      ∃ c1 rest2, (lrStep k view s LREv.flush).children = c1 :: rest2 ∧
        (lrStep k view s LREv.flush).containerRef = some (Elem.childRoot c1.id) ∧
        (lrStep k view s LREv.flush).tracker.lastTarget = some (Elem.childRoot c1.id) ∧
        (lrStep k view s LREv.flush).tracker.observer.targets = [Elem.childRoot c1.id]) := by
  obtain ⟨t1, hu1eq, ht1v, ht1lt, ht1tg⟩ :
      ∃ t1, runTargetWatch s = { s with tracker := t1 } ∧
        t1.isVisible = s.tracker.isVisible ∧ t1.lastTarget = some Elem.wrapper ∧
        t1.observer.targets = [Elem.wrapper] := by
    rcases htr with ⟨hlt, htg⟩ | ⟨hlt, htg⟩
    · have hne1 : ¬ s.containerRef = s.tracker.lastTarget := by rw [hcr, hlt]; simp
      refine ⟨s.tracker.targetChanged s.containerRef, runTargetWatch_of_ne s hne1,
        targetChanged_isVisible _ _, ?_, ?_⟩
      · rw [targetChanged_lastTarget, hcr]
      · rw [hcr, targetChanged_from_none_to_some s.tracker Elem.wrapper hlt]
        show (s.tracker.observer.observe Elem.wrapper).targets = [Elem.wrapper]
        unfold IOObserver.observe
        rw [htg]
        simp
    · exact ⟨s.tracker, by rw [runTargetWatch_of_eq s (by rw [hcr, hlt])], rfl, hlt, htg⟩
  cases hv : s.tracker.isVisible with
  | false =>
      left
      have hrv : ({ s with tracker := t1 } : LRState).tracker.isVisible = false := by
        show t1.isVisible = false
        rw [ht1v]; exact hv
      have hr := renderStep_of_invisible_nil k view { s with tracker := t1 } hrv hc
      have hq : visWatch (renderStep k view { s with tracker := t1 })
          = renderStep k view { s with tracker := t1 } := by
        apply visWatch_of_quiet
        rw [renderStep_isVisible, renderStep_lastVisibleSeen]
        show t1.isVisible = s.lastVisibleSeen
        rw [ht1v, hv, hlv]
      have hfin : lrStep k view s LREv.flush = renderStep k view { s with tracker := t1 } := by
        show runTargetWatch (visWatch (renderStep k view (runTargetWatch s))) = _
        rw [hu1eq, hq]
        apply runTargetWatch_of_eq
        rw [hr]
        show some Elem.wrapper = t1.lastTarget
        rw [ht1lt]
      refine ⟨rfl, ?_, ?_, ?_, ?_, ?_⟩
      · rw [hfin, hr]; exact hc
      · rw [hfin, hr]
      · rw [hfin, hr]; exact hlv
      · rw [hfin, hr]; exact ht1lt
      · rw [hfin, hr]; exact ht1tg
  | true =>
      right
      have hrv : ({ s with tracker := t1 } : LRState).tracker.isVisible = true := by
        show t1.isVisible = true
        rw [ht1v]; exact hv
      have hr := renderStep_of_visible_nil k view { s with tracker := t1 } hrv hc
      obtain ⟨c0, rest2, hcons⟩ :=
        List.exists_cons_of_ne_nil (mkChildren_ne_nil k view s.data s.nextId hk)
      have hXch : (renderStep k view { s with tracker := t1 }).children
          = mkChildren k view s.data s.nextId := by
        rw [hr]
        rfl
      have hXcr : (renderStep k view { s with tracker := t1 }).containerRef = none := by
        rw [hr]
        rfl
      have hXlv : (renderStep k view { s with tracker := t1 }).lastVisibleSeen = false := by
        rw [hr]
        exact hlv
      have hXtr : (renderStep k view { s with tracker := t1 }).tracker
          = t1.targetChanged none := by
        rw [hr]
        show (if (none : Option Elem) = t1.lastTarget then t1 else t1.targetChanged none)
            = t1.targetChanged none
        rw [if_neg (by rw [ht1lt]; simp)]
      have ht2lt : (t1.targetChanged none).lastTarget = none := targetChanged_lastTarget t1 none
      have ht2tg : (t1.targetChanged none).observer.targets = [] := by
        rw [targetChanged_from_some_to_none t1 Elem.wrapper ht1lt]
        show (t1.observer.unobserve Elem.wrapper).targets = []
        unfold IOObserver.unobserve
        rw [ht1tg]
        rfl
      have hXv : (renderStep k view { s with tracker := t1 }).tracker.isVisible = true := by
        rw [hXtr, targetChanged_isVisible, ht1v]
        exact hv
      have hfir : ¬ (renderStep k view { s with tracker := t1 }).tracker.isVisible
          = (renderStep k view { s with tracker := t1 }).lastVisibleSeen := by
        rw [hXv, hXlv]
        simp
      have hXc2 : (renderStep k view { s with tracker := t1 }).children = c0 :: rest2 := by
        rw [hXch, hcons]
      obtain ⟨b, sr, hvw⟩ :=
        visWatch_fired_cons (renderStep k view { s with tracker := t1 }) c0 rest2 hfir hXc2
      have hYtr : (visWatch (renderStep k view { s with tracker := t1 })).tracker
          = t1.targetChanged none := by
        rw [visWatch_tracker, hXtr]
      have hne3 : ¬ (visWatch (renderStep k view { s with tracker := t1 })).containerRef
          = (visWatch (renderStep k view { s with tracker := t1 })).tracker.lastTarget := by
        rw [hYtr, hvw, ht2lt]
        simp
      have hfin : lrStep k view s LREv.flush
          = { (visWatch (renderStep k view { s with tracker := t1 })) with
              tracker := (visWatch (renderStep k view { s with tracker := t1 })).tracker.targetChanged
                (visWatch (renderStep k view { s with tracker := t1 })).containerRef } := by
        show runTargetWatch (visWatch (renderStep k view (runTargetWatch s))) = _
        rw [hu1eq]
        exact runTargetWatch_of_ne _ hne3
      have hfch : (lrStep k view s LREv.flush).children = { c0 with frozen := b } :: rest2 := by
        rw [hfin]
        show (visWatch (renderStep k view { s with tracker := t1 })).children = _
        rw [hvw]
      have hfcr : (lrStep k view s LREv.flush).containerRef = some (Elem.childRoot c0.id) := by
        rw [hfin]
        show (visWatch (renderStep k view { s with tracker := t1 })).containerRef = _
        rw [hvw]
      have hflt : (lrStep k view s LREv.flush).tracker.lastTarget
          = some (Elem.childRoot c0.id) := by
        rw [hfin]
        show ((visWatch (renderStep k view { s with tracker := t1 })).tracker.targetChanged
          (visWatch (renderStep k view { s with tracker := t1 })).containerRef).lastTarget = _
        rw [targetChanged_lastTarget]
        show (visWatch (renderStep k view { s with tracker := t1 })).containerRef = _
        rw [hvw]
      have hftg : (lrStep k view s LREv.flush).tracker.observer.targets
          = [Elem.childRoot c0.id] := by
        rw [hfin]
        show ((visWatch (renderStep k view { s with tracker := t1 })).tracker.targetChanged
          (visWatch (renderStep k view { s with tracker := t1 })).containerRef).observer.targets = _
        rw [hYtr, hvw]
        show ((t1.targetChanged none).targetChanged (some (Elem.childRoot c0.id))).observer.targets
            = _
        rw [targetChanged_from_none_to_some (t1.targetChanged none) (Elem.childRoot c0.id) ht2lt]
        show ((t1.targetChanged none).observer.observe (Elem.childRoot c0.id)).targets = _
        unfold IOObserver.observe
        rw [ht2tg]
        simp
      exact ⟨rfl, { c0 with frozen := b }, rest2, hfch, hfcr, hflt, hftg⟩

/-- One flush from a state whose subtree exists and whose first child's root
element is the observed target: the target and the observed element stay that
same root element, and the head instance keeps its id. -/
theorem lrStep_flush_cons_analysis (k : Nat) (view : Nat → Nat → Nat) (s : LRState)
    (c0 : Child) (rest : List Child) (hc : s.children = c0 :: rest)
    (hcr : s.containerRef = some (Elem.childRoot c0.id))
    (hlt : s.tracker.lastTarget = some (Elem.childRoot c0.id))
    (htg : s.tracker.observer.targets = [Elem.childRoot c0.id]) :
    ∃ c1 rest2, c1.id = c0.id ∧
      (lrStep k view s LREv.flush).children = c1 :: rest2 ∧
      (lrStep k view s LREv.flush).containerRef = some (Elem.childRoot c0.id) ∧
      (lrStep k view s LREv.flush).tracker.lastTarget = some (Elem.childRoot c0.id) ∧
      (lrStep k view s LREv.flush).tracker.observer.targets = [Elem.childRoot c0.id] := by
  have hu1 : runTargetWatch s = s := runTargetWatch_of_eq s (by rw [hcr, hlt])
  have hr := renderStep_of_cons k view s c0 rest hc
  have hid : (if c0.frozen then c0 else { c0 with subTree := view c0.idx s.data }).id
      = c0.id := by
    split <;> rfl
  by_cases hq : s.tracker.isVisible = s.lastVisibleSeen
  · have hvq : visWatch (renderStep k view s) = renderStep k view s := by
      apply visWatch_of_quiet
      rw [renderStep_isVisible, renderStep_lastVisibleSeen]
      exact hq
    have hfin : lrStep k view s LREv.flush = renderStep k view s := by
      show runTargetWatch (visWatch (renderStep k view (runTargetWatch s))) = _
      rw [hu1, hvq]
      apply runTargetWatch_of_eq
      rw [hr]
      show s.containerRef = s.tracker.lastTarget
      rw [hcr, hlt]
    refine ⟨(if c0.frozen then c0 else { c0 with subTree := view c0.idx s.data }),
      rest.map (fun c => if c.frozen then c else { c with subTree := view c.idx s.data }),
      hid, ?_, ?_, ?_, ?_⟩
    · rw [hfin, hr]
      rfl
    · rw [hfin, hr]
      exact hcr
    · rw [hfin, hr]
      exact hlt
    · rw [hfin, hr]
      exact htg
  · have hXc : (renderStep k view s).children
        = (if c0.frozen then c0 else { c0 with subTree := view c0.idx s.data })
          :: rest.map (fun c => if c.frozen then c else { c with subTree := view c.idx s.data }) := by
      rw [hr]
      rfl
    obtain ⟨b, sr, hvw⟩ := visWatch_fired_cons (renderStep k view s) _ _
      (by rw [renderStep_isVisible, renderStep_lastVisibleSeen]; exact hq) hXc
    have hXtr : (renderStep k view s).tracker = s.tracker := by
      rw [hr]
    have hfin : lrStep k view s LREv.flush = visWatch (renderStep k view s) := by
      show runTargetWatch (visWatch (renderStep k view (runTargetWatch s))) = _
      rw [hu1]
      apply runTargetWatch_of_eq
      rw [hvw]
      show some (Elem.childRoot
          (if c0.frozen then c0 else { c0 with subTree := view c0.idx s.data }).id)
        = (renderStep k view s).tracker.lastTarget
      rw [hid, hXtr, hlt]
    refine ⟨{ (if c0.frozen then c0 else { c0 with subTree := view c0.idx s.data })
        with frozen := b },
      rest.map (fun c => if c.frozen then c else { c with subTree := view c.idx s.data }),
      hid, ?_, ?_, ?_, ?_⟩
    · rw [hfin, hvw]
    · rw [hfin, hvw]
      show some (Elem.childRoot
          (if c0.frozen then c0 else { c0 with subTree := view c0.idx s.data }).id)
        = some (Elem.childRoot c0.id)
      rw [hid]
    · rw [hfin, hvw]
      show (renderStep k view s).tracker.lastTarget = some (Elem.childRoot c0.id)
      rw [hXtr]
      exact hlt
    · rw [hfin, hvw]
      show (renderStep k view s).tracker.observer.targets = [Elem.childRoot c0.id]
      rw [hXtr]
      exact htg

theorem lrInv_step (k : Nat) (view : Nat → Nat → Nat) (hk : 0 < k)
    (s : LRState) (e : LREv) (h : lrInv s) : lrInv (lrStep k view s e) := by
  cases e with
  | deliver b => exact h
  | setData d => exact h
  | flush =>
      cases hc : s.children with
      | nil =>
          have h2 : s.containerRef = some Elem.wrapper ∧ s.lastVisibleSeen = false ∧
              ((s.tracker.lastTarget = none ∧ s.tracker.observer.targets = []) ∨
                (s.tracker.lastTarget = some Elem.wrapper ∧
                  s.tracker.observer.targets = [Elem.wrapper])) := by
            have h3 := h
            unfold lrInv at h3
            rw [hc] at h3
            exact h3
          rcases lrStep_flush_nil_analysis k view hk s hc h2.1 h2.2.1 h2.2.2 with
            ⟨-, hch, hcr2, hlv2, hlt2, htg2⟩ | ⟨-, c1, rest2, hch, hcr2, hlt2, htg2⟩
          · unfold lrInv
            rw [hch]
            exact ⟨hcr2, hlv2, Or.inr ⟨hlt2, htg2⟩⟩
          · unfold lrInv
            rw [hch]
            exact ⟨hcr2, hlt2, htg2⟩
      | cons c0 rest =>
          have h2 : s.containerRef = some (Elem.childRoot c0.id) ∧
              s.tracker.lastTarget = some (Elem.childRoot c0.id) ∧
              s.tracker.observer.targets = [Elem.childRoot c0.id] := by
            have h3 := h
            unfold lrInv at h3
            rw [hc] at h3
            exact h3
          obtain ⟨c1, rest2, hid, hch, hcr2, hlt2, htg2⟩ :=
            lrStep_flush_cons_analysis k view s c0 rest hc h2.1 h2.2.1 h2.2.2
          unfold lrInv
          rw [hch]
          exact ⟨by rw [hid]; exact hcr2, by rw [hid]; exact hlt2, by rw [hid]; exact htg2⟩

/-! ### Claims -/

/-- C10: along every run, while the real subtree does not exist the wrapper
element is the container reference and the only element that can be observed
(and it is the one observed after a flush that leaves the subtree uncreated);
once the subtree exists — from the post-render watcher of the creating flush
on — the observed target is exactly the root element of the subtree's first
child.  Moreover the watch body never observes anything when the target
reference is null: processing a null target adds no element to the
observation list. -/
theorem c10_target_follows_subtree_root (k : Nat) (view : Nat → Nat → Nat)
    (hk : 0 < k) (evs : List LREv) :
    ((lrRun k view evs).children = [] →
      (lrRun k view evs).containerRef = some Elem.wrapper ∧
      ∀ e ∈ (lrRun k view evs).tracker.observer.targets, e = Elem.wrapper) ∧
    (∀ c0 rest, (lrRun k view evs).children = c0 :: rest →
      (lrRun k view evs).containerRef = some (Elem.childRoot c0.id) ∧
      (lrRun k view evs).tracker.observer.targets = [Elem.childRoot c0.id]) ∧
    ((lrRun k view (evs ++ [LREv.flush])).children = [] →
      (lrRun k view (evs ++ [LREv.flush])).tracker.observer.targets = [Elem.wrapper]) ∧
    (∀ (t : TrackerState) (e : Elem),
      e ∈ ( t.targetChanged none).observer.targets → e ∈ t.observer.targets) := by
  have hinv : lrInv (lrRun k view evs) :=
    foldl_invariant (lrStep k view) lrInv (fun s e hp => lrInv_step k view hk s e hp)
      evs lrInit ⟨rfl, rfl, Or.inl ⟨rfl, rfl⟩⟩
  refine ⟨?_, ?_, ?_, ?_⟩
  · intro hnil
    have h2 : (lrRun k view evs).containerRef = some Elem.wrapper ∧
        (lrRun k view evs).lastVisibleSeen = false ∧
        (((lrRun k view evs).tracker.lastTarget = none ∧
            (lrRun k view evs).tracker.observer.targets = []) ∨
          ((lrRun k view evs).tracker.lastTarget = some Elem.wrapper ∧
            (lrRun k view evs).tracker.observer.targets = [Elem.wrapper])) := by
      have h3 := hinv
      unfold lrInv at h3
      rw [hnil] at h3
      exact h3
    refine ⟨h2.1, fun e he => ?_⟩
    rcases h2.2.2 with ⟨-, htg⟩ | ⟨-, htg⟩
    · rw [htg] at he
      cases he
    · rw [htg] at he
      exact List.mem_singleton.mp he
  · intro c0 rest hcons
    have h2 : (lrRun k view evs).containerRef = some (Elem.childRoot c0.id) ∧
        (lrRun k view evs).tracker.lastTarget = some (Elem.childRoot c0.id) ∧
        (lrRun k view evs).tracker.observer.targets = [Elem.childRoot c0.id] := by
      have h3 := hinv
      unfold lrInv at h3
      rw [hcons] at h3
      exact h3
    exact ⟨h2.1, h2.2.2⟩
  · intro hnil2
    have h4 : lrRun k view (evs ++ [LREv.flush])
        = lrStep k view (lrRun k view evs) LREv.flush := by
      rw [lrRun, lrRunFrom, List.foldl_append]
      rfl
    rw [h4] at hnil2 ⊢
    cases hc : (lrRun k view evs).children with
    | cons c0 rest =>
        have h2 : (lrRun k view evs).containerRef = some (Elem.childRoot c0.id) ∧
            (lrRun k view evs).tracker.lastTarget = some (Elem.childRoot c0.id) ∧
            (lrRun k view evs).tracker.observer.targets = [Elem.childRoot c0.id] := by
          have h3 := hinv
          unfold lrInv at h3
          rw [hc] at h3
          exact h3
        obtain ⟨c1, rest2, -, hch, -, -, -⟩ :=
          lrStep_flush_cons_analysis k view (lrRun k view evs) c0 rest hc h2.1 h2.2.1 h2.2.2
        rw [hch] at hnil2
        cases hnil2
    | nil =>
        have h2 : (lrRun k view evs).containerRef = some Elem.wrapper ∧
            (lrRun k view evs).lastVisibleSeen = false ∧
            (((lrRun k view evs).tracker.lastTarget = none ∧
                (lrRun k view evs).tracker.observer.targets = []) ∨
              ((lrRun k view evs).tracker.lastTarget = some Elem.wrapper ∧
                (lrRun k view evs).tracker.observer.targets = [Elem.wrapper])) := by
          have h3 := hinv
          unfold lrInv at h3
          rw [hc] at h3
          exact h3
        rcases lrStep_flush_nil_analysis k view hk (lrRun k view evs) hc h2.1 h2.2.1 h2.2.2 with
          ⟨-, -, -, -, -, htg2⟩ | ⟨-, c1, rest2, hch, -, -, -⟩
        · exact htg2
        · rw [hch] at hnil2
          cases hnil2
  · intro t e he
    rcases targetChanged_mem t none e he with h | h
    · exact h
    · cases h

/-- C10 witness: after the mount flush the wrapper is observed; after the
flush that creates the subtree, the observed element is the subtree root. -/
theorem c10_target_follows_subtree_root_witness :
    (lrRun 1 (fun _ d => d) [LREv.flush]).containerRef = some Elem.wrapper ∧
    (lrRun 1 (fun _ d => d)
      [LREv.flush, LREv.deliver true, LREv.flush]).tracker.observer.targets
      = [Elem.childRoot 0] := by
  have h1 := c10_target_follows_subtree_root 1 (fun _ d => d) (by decide) [LREv.flush]
  have h2 := c10_target_follows_subtree_root 1 (fun _ d => d) (by decide)
    [LREv.flush, LREv.deliver true, LREv.flush]
  refine ⟨(h1.1 (by decide)).1, ?_⟩
  exact (h2.2.1 { id := 0, idx := 0, frozen := false, internal := 0, subTree := 0 } []
    (by decide)).2

/-- C1: the `LazyRender` source neither declares an `emits` option nor calls
`emit` anywhere, so whatever visibility transitions the tracker delivers and
however the scheduler flushes, the list of change notifications the component
has emitted stays empty — it never emits the one-notification-per-transition
stream the claim (and the repository's own test suite) requires. -/
theorem c1_no_change_notification (k : Nat) (view : Nat → Nat → Nat) (evs : List LREv) :
    (lrRun k view evs).emitted = [] := by
  exact foldl_invariant (lrStep k view) (fun s => s.emitted = [])
    (fun s e hp => by
      show (lrStep k view s e).emitted = []
      rw [lrStep_emitted]; exact hp) evs lrInit rfl

/-- C2 counterexample: deliver `visible = true` and then `visible = false` in
the same tick (before the scheduler flushes, exactly the situation the spec's
edge-case clause describes); the visible-equals-true transition has occurred
and has been processed by the tracker, yet the following render still returns
the Placeholder output — refuting "the Placeholder is returned if and only if
no visible = true transition has yet occurred". -/
theorem c2_counterexample :
    (lrRun 1 (fun _ d => d) [LREv.flush, LREv.deliver true]).tracker.isVisible = true ∧
    (lrRun 1 (fun _ d => d)
      [LREv.flush, LREv.deliver true, LREv.deliver false, LREv.flush]).displayed
      = Disp.placeholder := by
  exact ⟨rfl, rfl⟩

/-- C2 amended: for every sequence of visibility transitions and flushes, the
Placeholder is the committed output if and only if the real subtree has not
yet been created; the subtree is created at the first render that occurs
while the visibility flag is true (not at the transition itself), and once it
exists no later sequence of events ever removes it, so the placeholder never
reappears. -/
theorem c2_placeholder_iff_not_created (k : Nat) (view : Nat → Nat → Nat)
    (hk : 0 < k) (evs evs2 : List LREv) :
    ((lrRun k view evs).displayed = Disp.placeholder ↔ (lrRun k view evs).children = []) ∧
    ((lrRun k view evs).children ≠ [] → (lrRun k view (evs ++ evs2)).children ≠ []) := by
  have hstepNe : ∀ (s : LRState) (e : LREv), s.children ≠ [] → (lrStep k view s e).children ≠ [] := by
    intro s e h
    cases e with
    | deliver b => exact h
    | setData d => exact h
    | flush =>
        show (runTargetWatch (visWatch (renderStep k view (runTargetWatch s)))).children ≠ []
        have h1 : (renderStep k view (runTargetWatch s)).children ≠ [] := by
          unfold renderStep
          split
          · next hcond => exact absurd hcond.2 h
          · split
            · next heq => exact absurd heq h
            · next c1 rest1 heq => simp
        exact fun hnil => h1 ((visWatch_children_nil _).mp hnil)
  constructor
  · refine foldl_invariant (lrStep k view)
      (fun s => s.displayed = Disp.placeholder ↔ s.children = []) ?_ evs lrInit (by simp [lrInit])
    intro s e hp
    show (lrStep k view s e).displayed = Disp.placeholder ↔ (lrStep k view s e).children = []
    cases e with
    | deliver b => exact hp
    | setData d => exact hp
    | flush =>
        show (runTargetWatch (visWatch (renderStep k view (runTargetWatch s)))).displayed
              = Disp.placeholder
            ↔ (runTargetWatch (visWatch (renderStep k view (runTargetWatch s)))).children = []
        rw [show ∀ u : LRState, (runTargetWatch u).displayed = u.displayed from fun _ => rfl,
            show ∀ u : LRState, (runTargetWatch u).children = u.children from fun _ => rfl,
            visWatch_displayed, visWatch_children_nil]
        unfold renderStep
        split
        · next hcond => simp [hcond.2]
        · split
          · next heq =>
              rw [show ∀ u : LRState, (runTargetWatch u).children = u.children from fun _ => rfl,
                  show ∀ u : LRState, (runTargetWatch u).displayed = u.displayed from fun _ => rfl]
              simp [mkChildren_ne_nil k view _ _ hk]
          · next c1 rest1 heq => simp
  · intro hne
    rw [lrRun, lrRunFrom, List.foldl_append]
    exact foldl_invariant (lrStep k view) (fun s => s.children ≠ [])
      (fun s e h => hstepNe s e h) evs2 _ hne

/-- C2 amended, witness: after entering the viewport and flushing the subtree
exists and the committed output is not the placeholder; it still exists after
leaving the viewport again. -/
theorem c2_placeholder_iff_not_created_witness :
    (¬ ((lrRun 1 (fun _ d => d) [LREv.flush, LREv.deliver true, LREv.flush]).displayed
        = Disp.placeholder)) ∧
    (lrRun 1 (fun _ d => d)
      ([LREv.flush, LREv.deliver true, LREv.flush] ++ [LREv.deliver false, LREv.flush])).children
      ≠ [] := by
  have h := c2_placeholder_iff_not_created 1 (fun _ d => d) (by decide)
    [LREv.flush, LREv.deliver true, LREv.flush] [LREv.deliver false, LREv.flush]
  exact ⟨fun hp => absurd (h.1.mp hp) (by decide), h.2 (by decide)⟩

/-- C3: from any state in which the tracked first slot child has the frozen
override installed, as long as it stays frozen (any interleaving of
re-render requests, intersection deliveries and mutations of the underlying
data), its committed output is exactly the output captured when the freeze
was installed, and its identity and internal state are preserved — it is
never unmounted or remounted. -/
theorem c3_frozen_output_pinned (k : Nat) (view : Nat → Nat → Nat)
    (s : LRState) (evs : List LREv) (h : frozenRunB k view s evs = true) :
    headSubTree (lrRunFrom k view s evs) = headSubTree s ∧
    headId (lrRunFrom k view s evs) = headId s ∧
    headInternal (lrRunFrom k view s evs) = headInternal s := by
  induction evs generalizing s with
  | nil => exact ⟨rfl, rfl, rfl⟩
  | cons e es ih =>
      rw [frozenRunB, Bool.and_eq_true] at h
      obtain ⟨h1, h2⟩ := h
      cases hc : s.children with
      | nil => simp [headFrozen, hc] at h1
      | cons c0 rest =>
          have hcf : c0.frozen = true := by simpa [headFrozen, hc] using h1
          obtain ⟨b, rest2, hstep⟩ := lrStep_children_of_frozen k view c0 rest s hc hcf e
          have ih2 := ih (lrStep k view s e) h2
          have hrun : lrRunFrom k view s (e :: es) = lrRunFrom k view (lrStep k view s e) es := by
            rw [lrRunFrom, lrRunFrom, List.foldl_cons]
          rw [hrun]
          refine ⟨?_, ?_, ?_⟩
          · rw [ih2.1]; simp [headSubTree, hstep, hc]
          · rw [ih2.2.1]; simp [headId, hstep, hc]
          · rw [ih2.2.2]; simp [headInternal, hstep, hc]

/-- C3 witness: freeze by entering then leaving the viewport, then change the
data twice with flushes in between; the child stays frozen throughout and its
committed output, identity and internal state are unchanged. -/
theorem c3_frozen_output_pinned_witness :
    frozenRunB 1 (fun _ d => d)
      (lrRun 1 (fun _ d => d)
        [LREv.flush, LREv.deliver true, LREv.flush, LREv.deliver false, LREv.flush])
      [LREv.setData 42, LREv.flush, LREv.setData 3, LREv.flush] = true ∧
    headSubTree (lrRunFrom 1 (fun _ d => d)
      (lrRun 1 (fun _ d => d)
        [LREv.flush, LREv.deliver true, LREv.flush, LREv.deliver false, LREv.flush])
      [LREv.setData 42, LREv.flush, LREv.setData 3, LREv.flush])
      = headSubTree (lrRun 1 (fun _ d => d)
        [LREv.flush, LREv.deliver true, LREv.flush, LREv.deliver false, LREv.flush]) := by
  refine ⟨by decide, ?_⟩
  exact (c3_frozen_output_pinned 1 (fun _ d => d)
    (lrRun 1 (fun _ d => d)
      [LREv.flush, LREv.deliver true, LREv.flush, LREv.deliver false, LREv.flush])
    [LREv.setData 42, LREv.flush, LREv.setData 3, LREv.flush] (by decide)).1

/-- C4: run the exact scenario of the repository's test "should resume
updates when re-entering viewport": enter the viewport and flush (subtree
mounts rendering data 0), leave and flush (freeze installs), change the data
to 7 and flush (frozen child re-renders its pinned output), re-enter and
flush.  The unfreeze branch does run — the override is removed
(`headFrozen = false`) — but it runs in the `flush: 'post'` watcher, after
the re-render of that same flush, and restoring `component.render` schedules
nothing, so at quiescence the committed output still shows the stale value 0
although the data is 7. -/
theorem c4_stale_frame_after_resume :
    (lrRun 1 (fun _ d => d)
      [LREv.flush, LREv.deliver true, LREv.flush, LREv.deliver false, LREv.flush,
       LREv.setData 7, LREv.flush, LREv.deliver true, LREv.flush]).displayed
      = Disp.content [0] ∧
    (lrRun 1 (fun _ d => d)
      [LREv.flush, LREv.deliver true, LREv.flush, LREv.deliver false, LREv.flush,
       LREv.setData 7, LREv.flush, LREv.deliver true, LREv.flush]).data = 7 ∧
    headFrozen (lrRun 1 (fun _ d => d)
      [LREv.flush, LREv.deliver true, LREv.flush, LREv.deliver false, LREv.flush,
       LREv.setData 7, LREv.flush, LREv.deliver true, LREv.flush]) = false := by
  exact ⟨rfl, rfl, rfl⟩

/-- C5: the real subtree is instantiated at most once along any run; it is
instantiated exactly once precisely when it exists, and once it exists, every
further sequence of visibility toggles, data mutations and flushes preserves
the instances — their identities, item indices and internal state — so the
subtree is never recreated nor discarded for the lifetime of the instance. -/
theorem c5_created_once_never_discarded (k : Nat) (view : Nat → Nat → Nat)
    (hk : 0 < k) (evs evs2 : List LREv) :
    (lrRun k view evs).creations ≤ 1 ∧
    ((lrRun k view evs).creations = 1 ↔ (lrRun k view evs).children ≠ []) ∧
    ((lrRun k view evs).children ≠ [] →
      (lrRun k view (evs ++ evs2)).children.map (fun c => (c.id, c.idx, c.internal))
        = (lrRun k view evs).children.map (fun c => (c.id, c.idx, c.internal))) := by
  have hstepIds : ∀ (s : LRState) (e : LREv), s.children ≠ [] →
      (lrStep k view s e).children.map (fun c => (c.id, c.idx, c.internal))
        = s.children.map (fun c => (c.id, c.idx, c.internal))
      ∧ (lrStep k view s e).children ≠ [] := by
    intro s e h
    cases e with
    | deliver b => exact ⟨rfl, h⟩
    | setData d => exact ⟨rfl, h⟩
    | flush =>
        rcases lrStep_flush_cases k view s with ⟨_, hnil, _⟩ | ⟨_, hnil, _⟩ |
          ⟨c0, rest, b, hc, hch, _, _⟩
        · exact absurd hnil h
        · exact absurd hnil h
        · constructor
          · rw [hch, hc]
            simp only [List.map_cons, List.map_map]
            congr 1
            · by_cases hf : c0.frozen <;> simp [hf]
            · apply List.map_congr_left
              intro c _
              by_cases hf : c.frozen <;> simp [hf]
          · rw [hch]
            simp
  have hstepCre : ∀ (s : LRState) (e : LREv),
      (s.creations ≤ 1 ∧ (s.creations = 1 ↔ s.children ≠ [])) →
      ((lrStep k view s e).creations ≤ 1 ∧
        ((lrStep k view s e).creations = 1 ↔ (lrStep k view s e).children ≠ [])) := by
    intro s e hp
    cases e with
    | deliver b => exact hp
    | setData d => exact hp
    | flush =>
        rcases lrStep_flush_cases k view s with ⟨_, hnil, hch, hcr, _⟩ |
          ⟨_, hnil, hch, hcr, _⟩ | ⟨c0, rest, b, hc, hch, hcr, _⟩
        · rw [hch, hcr]
          exact ⟨hp.1, by rw [hp.2, hnil]⟩
        · have hzero : s.creations = 0 := by
            have h1 := hp.1
            have h2 : s.creations ≠ 1 := fun hone => (hp.2.mp hone) hnil
            omega
          rw [hch, hcr, hzero]
          exact ⟨by omega, by simp [mkChildren_ne_nil k view _ _ hk]⟩
        · rw [hch, hcr]
          exact ⟨hp.1, by rw [hp.2, hc]; simp⟩
  have hinv := foldl_invariant (lrStep k view)
    (fun s => s.creations ≤ 1 ∧ (s.creations = 1 ↔ s.children ≠ []))
    hstepCre evs lrInit (by simp [lrInit])
  refine ⟨hinv.1, hinv.2, ?_⟩
  intro hne
  rw [lrRun, lrRunFrom, List.foldl_append]
  exact (foldl_invariant (lrStep k view)
    (fun s => s.children.map (fun c => (c.id, c.idx, c.internal))
        = (lrRun k view evs).children.map (fun c => (c.id, c.idx, c.internal))
      ∧ s.children ≠ [])
    (fun s e hp => ⟨((hstepIds s e hp.2).1).trans hp.1, (hstepIds s e hp.2).2⟩)
    evs2 _ ⟨rfl, hne⟩).1

/-- C5 witness: enter the viewport and flush; the subtree exists, exactly one
creation happened, and a leave/re-enter cycle preserves the instances. -/
theorem c5_created_once_never_discarded_witness :
    ((lrRun 1 (fun _ d => d) [LREv.flush, LREv.deliver true, LREv.flush]).creations = 1 ↔
      (lrRun 1 (fun _ d => d) [LREv.flush, LREv.deliver true, LREv.flush]).children ≠ []) ∧
    (lrRun 1 (fun _ d => d)
        ([LREv.flush, LREv.deliver true, LREv.flush]
          ++ [LREv.deliver false, LREv.flush, LREv.deliver true, LREv.flush])).children.map
        (fun c => (c.id, c.idx, c.internal))
      = (lrRun 1 (fun _ d => d)
          [LREv.flush, LREv.deliver true, LREv.flush]).children.map
          (fun c => (c.id, c.idx, c.internal)) := by
  have h := c5_created_once_never_discarded 1 (fun _ d => d) (by decide)
    [LREv.flush, LREv.deliver true, LREv.flush]
    [LREv.deliver false, LREv.flush, LREv.deliver true, LREv.flush]
  exact ⟨h.2.1, h.2.2 (by decide)⟩

/-- C9: only the first top-level item of the slot output is tracked for
freezing.  Along every run, every slot child other than the first stays
unfrozen; and a flush performed while the first child is frozen (and the
watcher quiescent) keeps the first child exactly as it is but still renders
all remaining children — they re-compute their output from the current data
and all children's outputs are committed. -/
theorem c9_only_first_item_frozen (k : Nat) (view : Nat → Nat → Nat)
    (evs : List LREv) (s : LRState)
    (hf : headFrozen s = true) (hq : s.tracker.isVisible = s.lastVisibleSeen) :
    (∀ c ∈ (lrRun k view evs).children.drop 1, c.frozen = false) ∧
    (lrStep k view s LREv.flush).children.head? = s.children.head? ∧
    (lrStep k view s LREv.flush).children.drop 1
      = (s.children.drop 1).map
          (fun c => if c.frozen then c else { c with subTree := view c.idx s.data }) ∧
    (lrStep k view s LREv.flush).displayed
      = Disp.content ((lrStep k view s LREv.flush).children.map (fun c => c.subTree)) := by
  have hfrozenflush : ∀ (u : LRState) (c0 : Child) (rest : List Child),
      u.children = c0 :: rest → c0.frozen = true →
      u.tracker.isVisible = u.lastVisibleSeen →
      (lrStep k view u LREv.flush).children
          = c0 :: rest.map (fun c =>
              if c.frozen then c else { c with subTree := view c.idx u.data }) ∧
      (lrStep k view u LREv.flush).displayed
          = Disp.content ((lrStep k view u LREv.flush).children.map (fun c => c.subTree)) := by
    intro u c0 rest hc hcf hq2
    have hrw : (runTargetWatch u).children = c0 :: rest := hc
    have hr := renderStep_children_cons k view (runTargetWatch u) c0 rest hrw hcf
    have hquiet : visWatch (renderStep k view (runTargetWatch u))
        = renderStep k view (runTargetWatch u) := by
      apply visWatch_of_quiet
      rw [renderStep_isVisible, renderStep_lastVisibleSeen, runTargetWatch_isVisible]
      exact hq2
    constructor
    · show (runTargetWatch (visWatch (renderStep k view (runTargetWatch u)))).children = _
      rw [runTargetWatch_children, hquiet, hr]
      rfl
    · show (runTargetWatch (visWatch (renderStep k view (runTargetWatch u)))).displayed
        = Disp.content
            ((runTargetWatch (visWatch (renderStep k view (runTargetWatch u)))).children.map
              (fun c => c.subTree))
      rw [runTargetWatch_displayed, runTargetWatch_children, hquiet,
          renderStep_displayed_of_cons k view (runTargetWatch u) c0 rest hrw]
  have hinv : ∀ c ∈ (lrRun k view evs).children.drop 1, c.frozen = false := by
    refine foldl_invariant (lrStep k view)
      (fun u => ∀ c ∈ u.children.drop 1, c.frozen = false) ?_ evs lrInit (by simp [lrInit])
    intro u e hp
    cases e with
    | deliver b => exact hp
    | setData d => exact hp
    | flush =>
        rcases lrStep_flush_cases k view u with ⟨_, _, hch, _, _⟩ |
          ⟨_, _, hch, _, _⟩ | ⟨c0, rest, b, hc, hch, _, _⟩
        · rw [hch]; intro c hcmem; cases hcmem
        · rw [hch]
          intro c hcmem
          exact mkChildren_frozen k view _ _ c (List.mem_of_mem_drop hcmem)
        · rw [hch]
          intro c hcmem
          simp only [List.drop_succ_cons, List.drop_zero] at hcmem
          obtain ⟨c1, hc1mem, hc1eq⟩ := List.mem_map.mp hcmem
          have hc1f : c1.frozen = false := by
            apply hp
            rw [hc]
            simpa using hc1mem
          rw [← hc1eq]
          simp [hc1f]
  cases hcs : s.children with
  | nil => rw [headFrozen, hcs] at hf; cases hf
  | cons c0 rest =>
      have hcf : c0.frozen = true := by
        rw [headFrozen, hcs] at hf; exact hf
      have hstep := hfrozenflush s c0 rest hcs hcf hq
      refine ⟨hinv, ?_, ?_, ?_⟩
      · rw [hstep.1]
        rfl
      · rw [hstep.1]
        simp
      · exact hstep.2

/-- C9 witness: two slot items; freeze, change the data, flush — the first
item's output is pinned while the second item re-renders from the new data. -/
theorem c9_only_first_item_frozen_witness :
    (lrStep 2 (fun i d => 10 * i + d)
        (lrRun 2 (fun i d => 10 * i + d)
          [LREv.flush, LREv.deliver true, LREv.flush, LREv.deliver false, LREv.flush,
           LREv.setData 5, LREv.flush])
        LREv.flush).children.head?
      = (lrRun 2 (fun i d => 10 * i + d)
          [LREv.flush, LREv.deliver true, LREv.flush, LREv.deliver false, LREv.flush,
           LREv.setData 5, LREv.flush]).children.head? ∧
    (lrStep 2 (fun i d => 10 * i + d)
        (lrRun 2 (fun i d => 10 * i + d)
          [LREv.flush, LREv.deliver true, LREv.flush, LREv.deliver false, LREv.flush,
           LREv.setData 5, LREv.flush])
        LREv.flush).children.drop 1
      = ((lrRun 2 (fun i d => 10 * i + d)
          [LREv.flush, LREv.deliver true, LREv.flush, LREv.deliver false, LREv.flush,
           LREv.setData 5, LREv.flush]).children.drop 1).map
          (fun c => if c.frozen then c else { c with subTree := 10 * c.idx + 5 }) := by
  have h := c9_only_first_item_frozen 2 (fun i d => 10 * i + d) []
    (lrRun 2 (fun i d => 10 * i + d)
      [LREv.flush, LREv.deliver true, LREv.flush, LREv.deliver false, LREv.flush,
       LREv.setData 5, LREv.flush])
    (by decide) (by decide)
  exact ⟨h.2.1, h.2.2.1⟩

/-- C6: replacing the observed target reference with a new element first
unobserves the old element and then observes the new one — both calls issued
back to back inside the single watch run, so the swap is atomic with respect
to delivered callbacks; afterwards only the new element is observed, and as
long as the old element never becomes the target again, a platform delivery
for the old element is never processed (it leaves the tracker state, in
particular `isVisible`, untouched). -/
theorem c6_target_replacement (t : TrackerState) (o n : Elem)
    (hinv : trackerInv t) (hold : t.lastTarget = some o) (hne : o ≠ n) :
    ( t.targetChanged (some n)).log = t.log ++ [ObsOp.unobserve o, ObsOp.observe n] ∧
    ( t.targetChanged (some n)).observer.targets = [n] ∧
    (∀ evs : List TEv, (∀ ev ∈ evs, ev ≠ TEv.target (some o)) →
      o ∉ (trackerRun ( t.targetChanged (some n)) evs).observer.targets ∧
      ∀ b, (trackerRun ( t.targetChanged (some n)) evs).platformDeliver o b
            = trackerRun ( t.targetChanged (some n)) evs) := by
  have hfilter : t.observer.targets.filter (fun x => decide (x ≠ o)) = [] := by
    rw [List.filter_eq_nil_iff]
    intro a ha
    have h2 := hinv a ha
    rw [hold] at h2
    injection h2 with h3
    simp [h3]
  have htc := targetChanged_from_some_to_some t o n hold
  have htargets : ( t.targetChanged (some n)).observer.targets = [n] := by
    rw [htc]
    show (( t.observer.unobserve o).observe n).targets = [n]
    unfold IOObserver.observe IOObserver.unobserve
    rw [hfilter]
    simp
  refine ⟨?_, htargets, ?_⟩
  · rw [htc]
    simp
  · intro evs hevs
    have hP := foldl_invariant_mem trackerStep
      (fun u => o ∉ u.observer.targets ∧ u.lastTarget ≠ some o)
      (fun ev => ev ≠ TEv.target (some o)) ?_ evs ( t.targetChanged (some n)) hevs ?_
    · have hP2 : o ∉ (trackerRun ( t.targetChanged (some n)) evs).observer.targets ∧
          (trackerRun ( t.targetChanged (some n)) evs).lastTarget ≠ some o := hP
      refine ⟨hP2.1, fun b => ?_⟩
      show (if o ∈ (trackerRun ( t.targetChanged (some n)) evs).observer.targets
            then (trackerRun ( t.targetChanged (some n)) evs).callback b
            else trackerRun ( t.targetChanged (some n)) evs)
          = trackerRun ( t.targetChanged (some n)) evs
      rw [if_neg hP2.1]
    · intro u ev hC hp
      cases ev with
      | target tgt =>
          show o ∉ (u.targetChanged tgt).observer.targets ∧
            (u.targetChanged tgt).lastTarget ≠ some o
          constructor
          · intro hmem
            rcases targetChanged_mem u tgt o hmem with h | h
            · exact hp.1 h
            · exact hC (by rw [h])
          · rw [targetChanged_lastTarget]
            intro h
            exact hC (by rw [h])
      | deliver e b =>
          show o ∉ (u.platformDeliver e b).observer.targets ∧
            (u.platformDeliver e b).lastTarget ≠ some o
          refine ⟨?_, ?_⟩
          · rw [platformDeliver_observer]
            exact hp.1
          · rw [platformDeliver_lastTarget]
            exact hp.2
      | stop =>
          show o ∉ (u.stop).observer.targets ∧ (u.stop).lastTarget ≠ some o
          refine ⟨?_, hp.2⟩
          show o ∉ (u.observer.disconnect).targets
          simp [IOObserver.disconnect]
    · constructor
      · rw [htargets]
        simp [hne]
      · rw [targetChanged_lastTarget]
        intro h
        injection h with h2
        exact hne h2.symm

/-- C6 witness: the wrapper element is observed; replacing the target with
the subtree root unobserves the wrapper and observes the root, and an
intersection delivery for the wrapper afterwards is not processed. -/
theorem c6_target_replacement_witness :
    (TrackerState.targetChanged
        { observer := { targets := [Elem.wrapper] }, isVisible := false,
          lastTarget := some Elem.wrapper, log := [] }
        (some (Elem.childRoot 0))).observer.targets = [Elem.childRoot 0] ∧
    Elem.wrapper ∉
      (trackerRun
        (TrackerState.targetChanged
          { observer := { targets := [Elem.wrapper] }, isVisible := false,
            lastTarget := some Elem.wrapper, log := [] }
          (some (Elem.childRoot 0)))
        [TEv.deliver Elem.wrapper true]).observer.targets := by
  have h := c6_target_replacement
    { observer := { targets := [Elem.wrapper] }, isVisible := false,
      lastTarget := some Elem.wrapper, log := [] }
    Elem.wrapper (Elem.childRoot 0)
    (by intro e he; simp at he; simp [he]) rfl (by decide)
  exact ⟨h.2.1, (h.2.2 [TEv.deliver Elem.wrapper true] (by decide)).1⟩

/-- C7: `stop()` is `observer.disconnect()`; after one call the observer
resource observes nothing (it is released), a second call leaves the observer
resource exactly as the first left it, and calling it when nothing is
attached leaves the resource unchanged — in every case a total no-op rather
than an error. -/
theorem c7_stop_idempotent (t : TrackerState) :
    ( t.stop).observer.targets = [] ∧
    ( t.stop).stop.observer = ( t.stop).observer ∧
    (t.observer.targets = [] → ( t.stop).observer = t.observer) := by
  refine ⟨rfl, rfl, fun h => ?_⟩
  show { targets := [] } = t.observer
  rw [← h]

/-- C7 witness: concrete detached tracker; detaching it is a no-op on the
observer resource. -/
theorem c7_stop_idempotent_witness :
    (TrackerState.stop
      { observer := { targets := [] }, isVisible := false,
        lastTarget := none, log := [] }).observer
      = ({ observer := { targets := [] }, isVisible := false,
           lastTarget := none, log := [] } : TrackerState).observer := by
  exact (c7_stop_idempotent
    { observer := { targets := [] }, isVisible := false,
      lastTarget := none, log := [] }).2.2 (by decide)

/-- C8: any threshold configuration with a ratio outside `[0,1]`, and any
non-parsing margin string, makes the eager observer construction fail, and
since neither `useIntersectionObserver` nor `LazyRender.setup` catches it,
the `InvalidConfiguration` error is surfaced to the host at setup/attach
time, not deferred and not swallowed. -/
theorem c8_invalid_configuration (opts : IOInit)
    (h : (∃ t ∈ opts.threshold, t < 0 ∨ 1 < t) ∨ opts.rootMarginValid = false) :
    useIntersectionObserver opts = Except.error CfgError.invalidConfiguration ∧
    lazyRenderSetup opts = Except.error CfgError.invalidConfiguration := by
  have herr : createObserver opts = Except.error CfgError.invalidConfiguration := by
    rcases h with ⟨t, ht, hbad⟩ | hm
    · have hall : opts.threshold.all (fun t => decide (0 ≤ t ∧ t ≤ 1)) = false := by
        cases hb : opts.threshold.all (fun t => decide (0 ≤ t ∧ t ≤ 1)) with
        | false => rfl
        | true =>
            exfalso
            have hforall := List.all_eq_true.mp hb t ht
            rw [decide_eq_true_eq] at hforall
            rcases hbad with hb2 | hb2
            · exact absurd hforall.1 (not_le.mpr hb2)
            · exact absurd hforall.2 (not_le.mpr hb2)
      unfold createObserver
      rw [hall]
      simp
    · cases hall : opts.threshold.all (fun t => decide (0 ≤ t ∧ t ≤ 1)) <;>
        simp [createObserver, hall, hm]
  constructor
  · simp [useIntersectionObserver, herr, Except.bind]
  · simp [lazyRenderSetup, useIntersectionObserver, herr, Except.bind, Except.map]

/-- C8 witness: threshold ratio 2 lies outside `[0,1]` and construction fails
with `InvalidConfiguration` right at setup. -/
theorem c8_invalid_configuration_witness :
    useIntersectionObserver { threshold := [(2 : Rat)], rootMarginValid := true }
      = Except.error CfgError.invalidConfiguration := by
  exact (c8_invalid_configuration { threshold := [(2 : Rat)], rootMarginValid := true }
    (Or.inl ⟨2, by decide, Or.inr (by decide)⟩)).1

end Vuedefer
